import Mathlib

/-!
# Verification of the `acta` todo tool

A shallow embedding of the `acta` repository (src/model.rs, src/persistence.rs,
src/cli.rs, src/main.rs) together with proofs of the specification's claims.

The embedding models:
* the `Todo` / `TodoState` data model (src/model.rs);
* `serde_json` serialization and deserialization of `Vec<Todo>`, as a concrete
  character-level serializer and recursive-descent parser mirroring the JSON
  text serde_json emits and accepts for this record shape;
* the persistence layer (src/persistence.rs): the host environment is a state
  `Env` holding an optional home directory and a file system as a map from
  path strings to file contents; `init`, `read`, `write` are state-passing
  functions over `Env`;
* the command surface (src/cli.rs) and entry point (src/main.rs).
-/

/-! ## Data model (src/model.rs) -/

/-- The todo state (src/model.rs, `TodoState`): `Pending` or `Completed`. -/
inductive TodoState where
  | Pending
  | Completed
deriving DecidableEq, Repr

/-- One todo item (src/model.rs, `Todo`). The Rust `id` field is a `u64`;
it is embedded as a `Nat`, and theorems that depend on the machine-width
bound carry the hypothesis `id < 2 ^ 64`. -/
structure Todo where
  id : Nat
  content : String
  state : TodoState
deriving DecidableEq, Repr

/-! ## JSON text model

`serde_json::to_string` on a `Vec<Todo>` emits, with no inter-token
whitespace, a JSON array of objects of the form
`{"id":<decimal>,"content":<json string>,"state":"Pending"|"Completed"}`.
String contents are escaped: `"` and `\` with a backslash, the control
characters 0x08/0x09/0x0A/0x0C/0x0D as `\b` `\t` `\n` `\f` `\r`, the other
control characters below 0x20 as `\u00XX` with lowercase hex digits, and all
other characters verbatim.  `serde_json::from_str::<Vec<Todo>>` is a
recursive-descent parse of the same shape: JSON whitespace is allowed
between tokens, struct fields may come in any order, a duplicate or unknown
field is an error, a missing field is an error, numbers for the `u64` field
must be unsigned decimals below `2 ^ 64` without leading zeros, and input
after the closing bracket (other than whitespace) is an error. -/

/-- JSON whitespace accepted by serde_json: space, tab, line feed, carriage
return. -/
def isWs (c : Char) : Bool :=
  c.toNat = 32 || c.toNat = 9 || c.toNat = 10 || c.toNat = 13

/-- Drop leading JSON whitespace. -/
def skipWs : List Char → List Char
  | c :: rest => if isWs c then skipWs rest else c :: rest
  | [] => []

/-- Decimal digit test. -/
def isDigit (c : Char) : Bool :=
  48 ≤ c.toNat && c.toNat ≤ 57

/-- The character for one decimal digit. -/
def digitChar : Nat → Char
  | 0 => '0' | 1 => '1' | 2 => '2' | 3 => '3' | 4 => '4'
  | 5 => '5' | 6 => '6' | 7 => '7' | 8 => '8' | _ => '9'

/-- Numeric value of a decimal digit character. -/
def digitVal (c : Char) : Nat := c.toNat - 48

/-- Decimal digits of `n`, most significant first (the text `itoa` emits). -/
def natDigits (n : Nat) : List Char :=
  if n < 10 then [digitChar n]
  else natDigits (n / 10) ++ [digitChar (n % 10)]
termination_by n
decreasing_by exact Nat.div_lt_self (by omega) (by omega)

/-- The character for one lowercase hex digit (as in serde_json's `\u00XX`
escapes). -/
def hexDigit : Nat → Char
  | 0 => '0' | 1 => '1' | 2 => '2' | 3 => '3' | 4 => '4'
  | 5 => '5' | 6 => '6' | 7 => '7' | 8 => '8' | 9 => '9'
  | 10 => 'a' | 11 => 'b' | 12 => 'c' | 13 => 'd' | 14 => 'e' | _ => 'f'

/-- Numeric value of a hex digit character, upper or lower case. -/
def hexVal (c : Char) : Option Nat :=
  if 48 ≤ c.toNat ∧ c.toNat ≤ 57 then some (c.toNat - 48)
  else if 97 ≤ c.toNat ∧ c.toNat ≤ 102 then some (c.toNat - 87)
  else if 65 ≤ c.toNat ∧ c.toNat ≤ 70 then some (c.toNat - 55)
  else none

/-- serde_json's escape for one character inside a JSON string literal. -/
def escapeChar (c : Char) : List Char :=
  if c = '"' then ['\\', '"']
  else if c = '\\' then ['\\', '\\']
  else if c.toNat = 8 then ['\\', 'b']
  else if c.toNat = 9 then ['\\', 't']
  else if c.toNat = 10 then ['\\', 'n']
  else if c.toNat = 12 then ['\\', 'f']
  else if c.toNat = 13 then ['\\', 'r']
  else if c.toNat < 32 then
    ['\\', 'u', '0', '0', hexDigit (c.toNat / 16), hexDigit (c.toNat % 16)]
  else [c]

/-- Escape a whole string body. -/
def escapeList : List Char → List Char
  | [] => []
  | c :: cs => escapeChar c ++ escapeList cs

/-- The serialized name of a `TodoState` value (serde serializes a unit enum
variant as a JSON string holding the variant name). -/
def stateChars : TodoState → List Char
  | .Pending => ['P', 'e', 'n', 'd', 'i', 'n', 'g']
  | .Completed => ['C', 'o', 'm', 'p', 'l', 'e', 't', 'e', 'd']

/-- The JSON object text serde_json emits for one `Todo`:
`\x7b"id":<digits>,"content":"<escaped>","state":"<variant>"\x7d`. -/
def serTodo (t : Todo) : List Char :=
  '{' :: '"' :: 'i' :: 'd' :: '"' :: ':' ::
    (natDigits t.id ++
      ',' :: '"' :: 'c' :: 'o' :: 'n' :: 't' :: 'e' :: 'n' :: 't' :: '"' :: ':' :: '"' ::
        (escapeList t.content.data ++
          '"' :: ',' :: '"' :: 's' :: 't' :: 'a' :: 't' :: 'e' :: '"' :: ':' :: '"' ::
            (stateChars t.state ++ ['"', '}'])))

/-- Comma-separated serialized array elements. -/
def serItems : List Todo → List Char
  | [] => []
  | [t] => serTodo t
  | t :: t' :: ts => serTodo t ++ ',' :: serItems (t' :: ts)

/-- The full JSON array text serde_json emits for a `Vec<Todo>`. -/
def serTodos (ts : List Todo) : List Char :=
  '[' :: (serItems ts ++ [']'])

/-- Parse an unsigned decimal integer for a `u64` field: one or more digits,
no leading zero (JSON number grammar), value below `2 ^ 64` (the `u64`
range serde enforces). -/
def parseNat (input : List Char) : Except String (Nat × List Char) :=
  match input with
  | c :: rest =>
    if c = '0' then
      match rest with
      | d :: _ => if isDigit d then .error "leading zero" else .ok (0, rest)
      | [] => .ok (0, [])
    else if isDigit c then
      let ds := rest.takeWhile isDigit
      let n := (c :: ds).foldl (fun a d => a * 10 + digitVal d) 0
      if n < 2 ^ 64 then .ok (n, rest.dropWhile isDigit)
      else .error "number out of range"
    else .error "expected digit"
  | [] => .error "expected digit"

/-- Undo a single-character escape after a backslash. -/
def unescapeChar : Char → Option Char
  | '"' => some '"'
  | '\\' => some '\\'
  | '/' => some '/'
  | 'b' => some (Char.ofNat 8)
  | 'f' => some (Char.ofNat 12)
  | 'n' => some (Char.ofNat 10)
  | 'r' => some (Char.ofNat 13)
  | 't' => some (Char.ofNat 9)
  | _ => none

/-- Combine four hex digit characters into a code point value. -/
def hexQuad (a b c d : Char) : Option Nat :=
  match hexVal a, hexVal b, hexVal c, hexVal d with
  | some va, some vb, some vc, some vd => some (((va * 16 + vb) * 16 + vc) * 16 + vd)
  | _, _, _, _ => none

/-- Parse a JSON string body after the opening quote, undoing escapes, up to
and including the closing quote.  A raw control character is an error, as in
serde_json; a `\uXXXX` escape must denote a Unicode scalar value (a lone
surrogate is rejected). -/
def parseStringBody : List Char → Except String (List Char × List Char)
  | [] => .error "unterminated string"
  | '"' :: rest => .ok ([], rest)
  | '\\' :: 'u' :: a :: b :: c :: d :: rest =>
    match hexQuad a b c d with
    | some n =>
      if n < 55296 ∨ (57343 < n ∧ n < 1114112) then
        (parseStringBody rest).map (fun p => (Char.ofNat n :: p.1, p.2))
      else .error "invalid code point"
    | none => .error "invalid hex escape"
  | '\\' :: e :: rest =>
    match unescapeChar e with
    | some ch => (parseStringBody rest).map (fun p => (ch :: p.1, p.2))
    | none => .error "invalid escape"
  | c :: rest =>
    if c.toNat < 32 then .error "control character in string"
    else (parseStringBody rest).map (fun p => (c :: p.1, p.2))

/-- Assemble a `Todo` once the closing brace is reached: every field must
have appeared. -/
def finishTodo (oid : Option Nat) (oc : Option (List Char)) (os : Option TodoState)
    (rest : List Char) : Except String (Todo × List Char) :=
  match oid, oc, os with
  | some i, some c, some s => .ok (⟨i, String.mk c, s⟩, rest)
  | _, _, _ => .error "missing field"

/-- Interpret a parsed JSON string as a `TodoState` variant name. -/
def parseStateName (s : List Char) : Except String TodoState :=
  if s = ['P', 'e', 'n', 'd', 'i', 'n', 'g'] then .ok .Pending
  else if s = ['C', 'o', 'm', 'p', 'l', 'e', 't', 'e', 'd'] then .ok .Completed
  else .error "unknown variant"

/-- Parse the fields of one `Todo` object after the opening brace, in any
order, one field per fuel unit.  Three distinct known fields exist and a
duplicate or unknown key is an error, so fuel `4` never runs out on an
input the parser would otherwise accept. -/
def parseTodoFields : Nat → Option Nat → Option (List Char) → Option TodoState →
    List Char → Except String (Todo × List Char)
  | 0, _, _, _, _ => .error "too many fields"
  | fuel + 1, oid, oc, os, input =>
    match skipWs input with
    | '"' :: rest =>
      match parseStringBody rest with
      | .error e => .error e
      | .ok (key, rest₁) =>
        match skipWs rest₁ with
        | ':' :: rest₂ =>
          if key = ['i', 'd'] then
            if oid.isSome then .error "duplicate field" else
            match parseNat (skipWs rest₂) with
            | .error e => .error e
            | .ok (n, rest₃) =>
              match skipWs rest₃ with
              | ',' :: r => parseTodoFields fuel (some n) oc os r
              | '}' :: r => finishTodo (some n) oc os r
              | _ => .error "expected comma or brace"
          else if key = ['c', 'o', 'n', 't', 'e', 'n', 't'] then
            if oc.isSome then .error "duplicate field" else
            match skipWs rest₂ with
            | '"' :: rest₂' =>
              match parseStringBody rest₂' with
              | .error e => .error e
              | .ok (s, rest₃) =>
                match skipWs rest₃ with
                | ',' :: r => parseTodoFields fuel oid (some s) os r
                | '}' :: r => finishTodo oid (some s) os r
                | _ => .error "expected comma or brace"
            | _ => .error "expected string"
          else if key = ['s', 't', 'a', 't', 'e'] then
            if os.isSome then .error "duplicate field" else
            match skipWs rest₂ with
            | '"' :: rest₂' =>
              match parseStringBody rest₂' with
              | .error e => .error e
              | .ok (s, rest₃) =>
                match parseStateName s with
                | .error e => .error e
                | .ok st =>
                  match skipWs rest₃ with
                  | ',' :: r => parseTodoFields fuel oid oc (some st) r
                  | '}' :: r => finishTodo oid oc (some st) r
                  | _ => .error "expected comma or brace"
            | _ => .error "expected string"
          else .error "unknown field"
        | _ => .error "expected colon"
    | _ => .error "expected field name"

/-- Parse one `Todo` object. -/
def parseTodo (input : List Char) : Except String (Todo × List Char) :=
  match skipWs input with
  | '{' :: rest => parseTodoFields 4 none none none rest
  | _ => .error "expected object"

/-- Parse one or more comma-separated `Todo` objects followed by the closing
bracket.  Each element consumes at least one input character, so fuel
`input.length + 1` at the call site never runs out first. -/
def parseManyTodos : Nat → List Char → Except String (List Todo × List Char)
  | 0, _ => .error "out of fuel"
  | fuel + 1, input =>
    match parseTodo input with
    | .error e => .error e
    | .ok (t, rest) =>
      match skipWs rest with
      | ',' :: r =>
        match parseManyTodos fuel r with
        | .error e => .error e
        | .ok (ts, r') => .ok (t :: ts, r')
      | ']' :: r => .ok ([t], r)
      | _ => .error "expected comma or bracket"

/-- Parse a whole `Vec<Todo>` from text: a JSON array of `Todo` objects with
nothing but whitespace after it. -/
def parseTodoList (input : List Char) : Except String (List Todo) :=
  match skipWs input with
  | '[' :: rest =>
    match skipWs rest with
    | ']' :: r => if (skipWs r).isEmpty then .ok [] else .error "trailing characters"
    | _ =>
      match parseManyTodos (rest.length + 1) rest with
      | .error e => .error e
      | .ok (ts, r) => if (skipWs r).isEmpty then .ok ts else .error "trailing characters"
  | _ => .error "expected list"

namespace serde_json

/-- `serde_json::to_string` on a `&[Todo]`.  Serializing this record shape
cannot fail (no map keys, no fallible `Serialize` impl), so the Rust
`Result` is always `Ok` and the embedding is total. -/
def to_string (ts : List Todo) : String := String.mk (serTodos ts)

/-- `serde_json::from_str::<Vec<Todo>>`; the error payload is the message
carried by `serde_json::Error`. -/
def from_str (s : String) : Except String (List Todo) := parseTodoList s.data

end serde_json

/-! ## Host environment

The persistence layer touches the outside world through `dirs::home_dir()`
and `std::fs`.  Both are embedded as explicit state: `Env.home` is the
result of `home_dir()` and `Env.fs` maps a path string to the content of
the file at that path, `none` when no such file exists.  `fs::write` is
modelled as always succeeding and `fs::read_to_string` as succeeding
exactly on existing files; disk-level I/O faults are not modelled, so the
`ActaError::Io` branches are kept but never taken in the theorems. -/

/-- The host environment: home directory resolution and the file system. -/
structure Env where
  home : Option String
  fs : String → Option String

/-- The error type of the persistence layer (src/persistence.rs,
`ActaError`).  The wrapped `std::io::Error` and `serde_json::Error`
payloads are embedded as their display messages. -/
inductive ActaError where
  | Io (msg : String)
  | Parse (msg : String)
  | HomeDir
deriving DecidableEq, Repr

namespace persistence

/-- The fixed storage filename (src/persistence.rs, `FILE_NAME`). -/
def FILE_NAME : String := ".acta"

/-- The storage path: home directory joined with `FILE_NAME`, as built by
`home_dir()` followed by `PathBuf::push`. -/
def storePath (h : String) : String := h ++ "/" ++ FILE_NAME

/-- `persistence::init` (src/persistence.rs:77): resolve the home directory
(`HomeDir` error when absent), append `FILE_NAME`, create the file with
content `[]` when it does not exist, and return the path. -/
def init (env : Env) : Except ActaError String × Env :=
  match env.home with
  | none => (.error .HomeDir, env)
  | some h =>
    let p := storePath h
    if (env.fs p).isSome then (.ok p, env)
    else (.ok p, { env with fs := fun q => if q = p then some "[]" else env.fs q })

/-- `persistence::read` (src/persistence.rs:111): run `init`, read the file
at the returned path, deserialize it as a `Vec<Todo>`. -/
def read (env : Env) : Except ActaError (List Todo) × Env :=
  match init env with
  | (.error e, env₁) => (.error e, env₁)
  | (.ok p, env₁) =>
    match env₁.fs p with
    | none => (.error (.Io "file not found"), env₁)
    | some content =>
      match serde_json.from_str content with
      | .error e => (.error (.Parse e), env₁)
      | .ok todos => (.ok todos, env₁)

/-- `persistence::write` (src/persistence.rs:146): run `init`, serialize the
given todos, replace the file content at the returned path. -/
def write (todos : List Todo) (env : Env) : Except ActaError Unit × Env :=
  match init env with
  | (.error e, env₁) => (.error e, env₁)
  | (.ok p, env₁) =>
    let s := serde_json.to_string todos
    (.ok (), { env₁ with fs := fun q => if q = p then some s else env₁.fs q })

end persistence

/-! ## Command surface (src/cli.rs) and entry point (src/main.rs) -/

/-- The subcommand set (src/cli.rs, `Commands`).  The `u64` ids are embedded
as `Nat`. -/
inductive Commands where
  | List (completed : Bool) (pending : Bool)
  | Add (todo : String)
  | Complete (id : Nat)
  | Edit (id : Nat) (todo : String)
  | Delete (id : Nat)
  | Export
deriving DecidableEq, Repr

/-- The parsed argument record (src/cli.rs, `Args`): an optional subcommand. -/
structure Args where
  command : Option Commands
deriving DecidableEq, Repr

/-- The constructor index of a `Commands` value, in declaration order. -/
def ctorIdx : Commands → Nat
  | .List _ _ => 0
  | .Add _ => 1
  | .Complete _ => 2
  | .Edit _ _ => 3
  | .Delete _ => 4
  | .Export => 5

/-- A requested invocation, before argument validation: which subcommand the
process arguments name and the values given for its declared arguments
(`none` for no subcommand at all). -/
inductive RawCommand where
  | rawList (completed : Bool) (pending : Bool)
  | rawAdd (todo : String)
  | rawComplete (id : Nat)
  | rawEdit (id : Nat) (todo : String)
  | rawDelete (id : Nat)
  | rawExport
deriving DecidableEq, Repr

/-- An argument-validation failure reported by the parser, which terminates
the process before the body of `main` runs. -/
inductive CliError where
  | conflictingFlags
deriving DecidableEq, Repr

/-- `cli::parse_args` (src/cli.rs:3): `Args::parse()` over the declared
schema.  Modelled from the declared `clap` attributes: both `List` flags
default to `false`, and each carries `conflicts_with` naming the other, so
an invocation setting both is rejected; every other declared combination is
accepted as the corresponding `Commands` value. -/
def parse_args (inv : Option RawCommand) : Except CliError Args :=
  match inv with
  | none => .ok ⟨none⟩
  | some (.rawList completed pending) =>
    if completed && pending then .error .conflictingFlags
    else .ok ⟨some (.List completed pending)⟩
  | some (.rawAdd todo) => .ok ⟨some (.Add todo)⟩
  | some (.rawComplete i) => .ok ⟨some (.Complete i)⟩
  | some (.rawEdit i todo) => .ok ⟨some (.Edit i todo)⟩
  | some (.rawDelete i) => .ok ⟨some (.Delete i)⟩
  | some .rawExport => .ok ⟨some .Export⟩

/-- `cli::handle_command` (src/cli.rs:7): a flat match whose every arm only
prints a fixed announcement.  The environment is threaded through to record
that no arm touches it: the result is the printed line and the unchanged
environment. -/
def handle_command (command : Commands) (env : Env) : String × Env :=
  match command with
  | .List _ _ => ("Listing", env)
  | .Add _ => ("Adding", env)
  | .Complete _ => ("Completing", env)
  | .Edit _ _ => ("Editing", env)
  | .Delete _ => ("Deleting", env)
  | .Export => ("Exporting", env)

/-- How one process run ends: terminated by the argument parser, ran a
dispatched command printing one line, or panicked. -/
inductive MainOutcome where
  | usage (e : CliError)
  | ran (output : String)
  | panicked (msg : String)
deriving DecidableEq, Repr

/-- `main` (src/main.rs:7): parse the arguments (a parse failure terminates
the process before the body runs), call `persistence::init` and discard its
result value (`let _ = ...`, keeping only its file-system effect), then
dispatch the subcommand, panicking when none was given. -/
def mainRun (inv : Option RawCommand) (env : Env) : MainOutcome × Env :=
  match parse_args inv with
  | .error e => (.usage e, env)
  | .ok args =>
    let env₁ := (persistence.init env).2
    match args.command with
    | some c =>
      let r := handle_command c env₁
      (.ran r.1, r.2)
    | none => (.panicked "TUI has not yet been implemented", env₁)

/-! ## Equality instances used by concrete witnesses -/

deriving instance DecidableEq for Except

/-! ## Codec round-trip, numbers -/

/-- A remainder that cannot extend a digit run: empty or headed by a
non-digit. -/
def digitBoundary : List Char → Bool
  | [] => true
  | c :: _ => !isDigit c

theorem digitChar_isDigit (n : Nat) (h : n < 10) : isDigit (digitChar n) = true := by
  interval_cases n <;> decide

theorem digitVal_digitChar (n : Nat) (h : n < 10) : digitVal (digitChar n) = n := by
  interval_cases n <;> decide

theorem natDigits_all_digits (n : Nat) : ∀ c ∈ natDigits n, isDigit c = true := by
  induction n using Nat.strongRecOn with
  | _ n ih =>
    rw [natDigits]
    split
    · next h =>
      intro c hc
      rw [List.mem_singleton] at hc
      subst hc
      exact digitChar_isDigit n h
    · next h =>
      intro c hc
      rw [List.mem_append] at hc
      rcases hc with hc | hc
      · exact ih (n / 10) (Nat.div_lt_self (by omega) (by omega)) c hc
      · rw [List.mem_singleton] at hc
        subst hc
        exact digitChar_isDigit _ (Nat.mod_lt _ (by omega))

theorem foldl_natDigits (n : Nat) : ∀ a : Nat,
    (natDigits n).foldl (fun x d => x * 10 + digitVal d) a
      = a * 10 ^ (natDigits n).length + n := by
  induction n using Nat.strongRecOn with
  | _ n ih =>
    intro a
    rw [natDigits]
    split
    · next h =>
      simp [digitVal_digitChar n h]
    · next h =>
      rw [List.foldl_append, List.length_append, ih (n / 10) (Nat.div_lt_self (by omega) (by omega))]
      simp only [List.foldl_cons, List.foldl_nil, List.length_singleton,
        digitVal_digitChar _ (Nat.mod_lt n (by omega)), pow_succ]
      have hdm := Nat.div_add_mod n 10
      generalize (10 : Nat) ^ (natDigits (n / 10)).length = k
      rw [← Nat.mul_assoc]
      omega

theorem natDigits_head_pos (n : Nat) (hn : 1 ≤ n) :
    ∃ c t, natDigits n = c :: t ∧ isDigit c = true ∧ c ≠ '0' := by
  induction n using Nat.strongRecOn with
  | _ n ih =>
    rw [natDigits]
    split
    · next h =>
      refine ⟨digitChar n, [], rfl, digitChar_isDigit n h, ?_⟩
      interval_cases n <;> simp_all <;> decide
    · next h =>
      obtain ⟨c, t, hct, hd, h0⟩ :=
        ih (n / 10) (Nat.div_lt_self (by omega) (by omega)) (by omega)
      exact ⟨c, t ++ [digitChar (n % 10)], by rw [hct]; rfl, hd, h0⟩

theorem takeWhile_digits_append (ds rest : List Char) (hds : ∀ c ∈ ds, isDigit c = true)
    (hrest : digitBoundary rest = true) :
    (ds ++ rest).takeWhile isDigit = ds ∧ (ds ++ rest).dropWhile isDigit = rest := by
  induction ds with
  | nil =>
    cases rest with
    | nil => simp
    | cons c r =>
      simp only [digitBoundary, Bool.not_eq_true'] at hrest
      simp [List.takeWhile, List.dropWhile, hrest]
  | cons c t ih =>
    have hc := hds c (by simp)
    have ht := ih (fun x hx => hds x (by simp [hx]))
    simp [List.takeWhile, List.dropWhile, hc, ht.1, ht.2]

/-- Parsing a rendered decimal recovers the number, for any remainder that
cannot extend the digit run. -/
theorem parseNat_natDigits (n : Nat) (rest : List Char) (hn : n < 2 ^ 64)
    (hb : digitBoundary rest = true) :
    parseNat (natDigits n ++ rest) = .ok (n, rest) := by
  rcases Nat.eq_zero_or_pos n with h0 | hpos
  · subst h0
    have hz : natDigits 0 = ['0'] := by rw [natDigits]; simp; rfl
    rw [hz]
    cases rest with
    | nil => rfl
    | cons c r =>
      simp only [digitBoundary, Bool.not_eq_true'] at hb
      simp [parseNat, hb]
  · obtain ⟨c, t, hct, hd, h0⟩ := natDigits_head_pos n hpos
    have htd : ∀ x ∈ t, isDigit x = true := fun x hx =>
      natDigits_all_digits n x (by rw [hct]; exact List.mem_cons_of_mem c hx)
    have htake := takeWhile_digits_append t rest htd hb
    have hfold : (c :: t).foldl (fun x d => x * 10 + digitVal d) 0 = n := by
      have := foldl_natDigits n 0
      rw [hct] at this
      simpa using this
    have hn' : n < 18446744073709551616 := by omega
    rw [hct, List.cons_append]
    simp [parseNat, h0, hd, htake.1, htake.2, hfold, hn']

/-! ## Codec round-trip, strings -/

theorem hexVal_hexDigit (d : Nat) (h : d < 16) : hexVal (hexDigit d) = some d := by
  interval_cases d <;> decide

/-- Parsing one escaped character undoes `escapeChar`. -/
theorem parseStringBody_escapeChar (c : Char) (tail : List Char) :
    parseStringBody (escapeChar c ++ tail)
      = (parseStringBody tail).map (fun p => (c :: p.1, p.2)) := by
  rw [escapeChar]
  by_cases hq : c = '"'
  · subst hq; rfl
  rw [if_neg hq]
  by_cases hbs : c = '\\'
  · subst hbs; rfl
  rw [if_neg hbs]
  by_cases h8 : c.toNat = 8
  · have hc : c = Char.ofNat 8 := by rw [← h8, Char.ofNat_toNat]
    subst hc; rfl
  rw [if_neg h8]
  by_cases h9 : c.toNat = 9
  · have hc : c = Char.ofNat 9 := by rw [← h9, Char.ofNat_toNat]
    subst hc; rfl
  rw [if_neg h9]
  by_cases h10 : c.toNat = 10
  · have hc : c = Char.ofNat 10 := by rw [← h10, Char.ofNat_toNat]
    subst hc; rfl
  rw [if_neg h10]
  by_cases h12 : c.toNat = 12
  · have hc : c = Char.ofNat 12 := by rw [← h12, Char.ofNat_toNat]
    subst hc; rfl
  rw [if_neg h12]
  by_cases h13 : c.toNat = 13
  · have hc : c = Char.ofNat 13 := by rw [← h13, Char.ofNat_toNat]
    subst hc; rfl
  rw [if_neg h13]
  by_cases hlt : c.toNat < 32
  · rw [if_pos hlt]
    simp only [List.cons_append, List.nil_append]
    rw [parseStringBody]
    rw [hexQuad]
    rw [hexVal_hexDigit (c.toNat / 16) (by omega), hexVal_hexDigit (c.toNat % 16) (by omega)]
    simp only [show hexVal '0' = some 0 from rfl]
    have harith : ((0 * 16 + 0) * 16 + c.toNat / 16) * 16 + c.toNat % 16 = c.toNat := by omega
    rw [harith]
    rw [if_pos (by omega : c.toNat < 55296 ∨ 57343 < c.toNat ∧ c.toNat < 1114112)]
    rw [Char.ofNat_toNat]
  · rw [if_neg hlt]
    rw [List.singleton_append, parseStringBody.eq_def]
    split
    · next heq => exact absurd heq (by simp)
    · next heq =>
      rw [List.cons.injEq] at heq
      exact absurd heq.1 hq
    · next a b d e rest heq =>
      rw [List.cons.injEq] at heq
      exact absurd heq.1 hbs
    · next e rest heq =>
      rw [List.cons.injEq] at heq
      exact absurd heq.1 hbs
    · next c' rest heq =>
      rw [List.cons.injEq] at heq
      obtain ⟨hc', hrest⟩ := heq
      subst hc'; subst hrest
      rw [if_neg hlt]

/-- Parsing a rendered string body recovers it. -/
theorem parseStringBody_escapeList (s : List Char) : ∀ tail : List Char,
    parseStringBody (escapeList s ++ '"' :: tail) = .ok (s, tail) := by
  induction s with
  | nil => intro tail; rfl
  | cons c cs ih =>
    intro tail
    rw [escapeList, List.append_assoc, parseStringBody_escapeChar, ih]
    rfl

/-! ## Codec round-trip, objects and the array -/

theorem skipWs_cons (c : Char) (r : List Char) (hc : isWs c = false) :
    skipWs (c :: r) = c :: r := by
  rw [skipWs, hc]
  simp

theorem digit_not_ws (c : Char) (h : isDigit c = true) : isWs c = false := by
  simp only [isDigit, Bool.and_eq_true, decide_eq_true_eq] at h
  simp only [isWs, Bool.or_eq_false_iff, decide_eq_false_iff_not]
  omega

theorem natDigits_cons_digit (n : Nat) :
    ∃ c t, natDigits n = c :: t ∧ isDigit c = true := by
  cases h : natDigits n with
  | nil =>
    exfalso
    have : natDigits n ≠ [] := by rw [natDigits]; split <;> simp
    exact this h
  | cons c t =>
    exact ⟨c, t, rfl, natDigits_all_digits n c (by rw [h]; exact List.mem_cons_self c t)⟩

theorem skipWs_natDigits (n : Nat) (r : List Char) :
    skipWs (natDigits n ++ r) = natDigits n ++ r := by
  obtain ⟨c, t, hct, hc⟩ := natDigits_cons_digit n
  rw [hct, List.cons_append, skipWs_cons _ _ (digit_not_ws c hc)]

theorem digitBoundary_cons (c : Char) (r : List Char) (hc : isDigit c = false) :
    digitBoundary (c :: r) = true := by
  rw [digitBoundary, hc]
  rfl

theorem parseStringBody_stateChars (st : TodoState) (z : List Char) :
    parseStringBody (stateChars st ++ '"' :: z) = .ok (stateChars st, z) := by
  cases st <;> rfl

theorem parseStateName_stateChars (st : TodoState) :
    parseStateName (stateChars st) = .ok st := by
  cases st <;> rfl

/-- Consuming the serialized `id` field (key, colon, decimal, comma). -/
theorem parseTodoFields_id_comma (oc : Option (List Char)) (os : Option TodoState)
    (n : Nat) (X r : List Char) (hn : parseNat (skipWs X) = .ok (n, ',' :: r)) :
    parseTodoFields 4 none oc os ('"' :: 'i' :: 'd' :: '"' :: ':' :: X)
      = parseTodoFields 3 (some n) oc os r := by
  have base : parseTodoFields 4 none oc os ('"' :: 'i' :: 'd' :: '"' :: ':' :: X)
      = match parseNat (skipWs X) with
        | .error e => .error e
        | .ok (m, r₃) =>
          match skipWs r₃ with
          | ',' :: r' => parseTodoFields 3 (some m) oc os r'
          | '}' :: r' => finishTodo (some m) oc os r'
          | _ => .error "expected comma or brace" := rfl
  rw [base, hn]
  rfl

/-- Consuming the serialized `content` field (key, colon, string, comma). -/
theorem parseTodoFields_content_comma (oid : Option Nat) (os : Option TodoState)
    (s : List Char) (X r : List Char) (hs : parseStringBody X = .ok (s, ',' :: r)) :
    parseTodoFields 3 oid none os
        ('"' :: 'c' :: 'o' :: 'n' :: 't' :: 'e' :: 'n' :: 't' :: '"' :: ':' :: '"' :: X)
      = parseTodoFields 2 oid (some s) os r := by
  have base : parseTodoFields 3 oid none os
        ('"' :: 'c' :: 'o' :: 'n' :: 't' :: 'e' :: 'n' :: 't' :: '"' :: ':' :: '"' :: X)
      = match parseStringBody X with
        | .error e => .error e
        | .ok (s', r₃) =>
          match skipWs r₃ with
          | ',' :: r' => parseTodoFields 2 oid (some s') os r'
          | '}' :: r' => finishTodo oid (some s') os r'
          | _ => .error "expected comma or brace" := rfl
  rw [base, hs]
  rfl

/-- Consuming the serialized `state` field (key, colon, string, closing
brace) and assembling the record. -/
theorem parseTodoFields_state_brace (oid : Option Nat) (oc : Option (List Char))
    (s : List Char) (st : TodoState) (X r : List Char)
    (hs : parseStringBody X = .ok (s, '}' :: r)) (hst : parseStateName s = .ok st) :
    parseTodoFields 2 oid oc none
        ('"' :: 's' :: 't' :: 'a' :: 't' :: 'e' :: '"' :: ':' :: '"' :: X)
      = finishTodo oid oc (some st) r := by
  have base : parseTodoFields 2 oid oc none
        ('"' :: 's' :: 't' :: 'a' :: 't' :: 'e' :: '"' :: ':' :: '"' :: X)
      = match parseStringBody X with
        | .error e => .error e
        | .ok (s', r₃) =>
          match parseStateName s' with
          | .error e => .error e
          | .ok st' =>
            match skipWs r₃ with
            | ',' :: r' => parseTodoFields 1 oid oc (some st') r'
            | '}' :: r' => finishTodo oid oc (some st') r'
            | _ => .error "expected comma or brace" := rfl
  rw [base, hs]
  simp only [hst]
  rfl

/-- Parsing a rendered `Todo` object recovers the record, whatever follows. -/
theorem parseTodo_serTodo (t : Todo) (rest : List Char) (hid : t.id < 2 ^ 64) :
    parseTodo (serTodo t ++ rest) = .ok (t, rest) := by
  obtain ⟨i, content, st⟩ := t
  simp only [serTodo, List.cons_append, List.append_assoc]
  have h3 : parseStringBody (stateChars st ++ '"' :: '}' :: rest)
      = .ok (stateChars st, '}' :: rest) := parseStringBody_stateChars st ('}' :: rest)
  have h2 : parseStringBody (escapeList content.data ++
        '"' :: ',' :: '"' :: 's' :: 't' :: 'a' :: 't' :: 'e' :: '"' :: ':' :: '"' ::
          (stateChars st ++ '"' :: '}' :: rest))
      = .ok (content.data,
          ',' :: '"' :: 's' :: 't' :: 'a' :: 't' :: 'e' :: '"' :: ':' :: '"' ::
            (stateChars st ++ '"' :: '}' :: rest)) :=
    parseStringBody_escapeList content.data _
  have h1 : parseNat (skipWs (natDigits i ++
        ',' :: '"' :: 'c' :: 'o' :: 'n' :: 't' :: 'e' :: 'n' :: 't' :: '"' :: ':' :: '"' ::
          (escapeList content.data ++
            '"' :: ',' :: '"' :: 's' :: 't' :: 'a' :: 't' :: 'e' :: '"' :: ':' :: '"' ::
              (stateChars st ++ '"' :: '}' :: rest))))
      = .ok (i,
          ',' :: '"' :: 'c' :: 'o' :: 'n' :: 't' :: 'e' :: 'n' :: 't' :: '"' :: ':' :: '"' ::
            (escapeList content.data ++
              '"' :: ',' :: '"' :: 's' :: 't' :: 'a' :: 't' :: 'e' :: '"' :: ':' :: '"' ::
                (stateChars st ++ '"' :: '}' :: rest))) := by
    rw [skipWs_natDigits]
    exact parseNat_natDigits i _ hid (digitBoundary_cons _ _ (by decide))
  rw [show ∀ X : List Char, parseTodo ('{' :: X) = parseTodoFields 4 none none none X
        from fun X => rfl]
  refine (parseTodoFields_id_comma none none i _ _ h1).trans ?_
  rw [parseTodoFields_content_comma (some i) none content.data _ _ h2]
  rw [parseTodoFields_state_brace (some i) (some content.data) (stateChars st) st _ _ h3
        (parseStateName_stateChars st)]
  rfl

theorem parseManyTodos_succ (fuel : Nat) (input : List Char) :
    parseManyTodos (fuel + 1) input
      = match parseTodo input with
        | .error e => .error e
        | .ok (t, rest) =>
          match skipWs rest with
          | ',' :: r =>
            match parseManyTodos fuel r with
            | .error e => .error e
            | .ok (ts, r') => .ok (t :: ts, r')
          | ']' :: r => .ok ([t], r)
          | _ => .error "expected comma or bracket" := rfl

/-- Parsing the rendered elements of a nonempty array recovers them, given
enough fuel (one unit per element). -/
theorem parseManyTodos_serItems (ts : List Todo) (hne : ts ≠ [])
    (hvalid : ∀ t ∈ ts, t.id < 2 ^ 64) :
    ∀ fuel : Nat, ts.length ≤ fuel → ∀ rest : List Char,
      parseManyTodos fuel (serItems ts ++ ']' :: rest) = .ok (ts, rest) := by
  induction ts with
  | nil => exact absurd rfl hne
  | cons t ts ih =>
    intro fuel hfuel rest
    match fuel, hfuel with
    | fuel + 1, hf =>
      cases ts with
      | nil =>
        rw [show serItems [t] = serTodo t from rfl]
        rw [parseManyTodos_succ, parseTodo_serTodo t (']' :: rest) (hvalid t (by simp))]
        rfl
      | cons t' ts' =>
        rw [show serItems (t :: t' :: ts') = serTodo t ++ ',' :: serItems (t' :: ts')
              from rfl]
        rw [List.append_assoc, List.cons_append]
        rw [parseManyTodos_succ,
            parseTodo_serTodo t (',' :: (serItems (t' :: ts') ++ ']' :: rest))
              (hvalid t (by simp))]
        show (match parseManyTodos fuel (serItems (t' :: ts') ++ ']' :: rest) with
          | .error e => Except.error e
          | .ok (l, r') => Except.ok (t :: l, r')) = Except.ok (t :: t' :: ts', rest)
        rw [ih (by simp) (fun x hx => hvalid x (List.mem_cons_of_mem t hx)) fuel
              (by simp only [List.length_cons] at hf ⊢; omega) rest]

theorem length_serItems (ts : List Todo) : ts.length ≤ (serItems ts).length := by
  induction ts with
  | nil => simp [serItems]
  | cons t ts ih =>
    cases ts with
    | nil => simp [serItems, serTodo]
    | cons t' ts' =>
      rw [show serItems (t :: t' :: ts') = serTodo t ++ ',' :: serItems (t' :: ts')
            from rfl]
      rw [show serTodo t = '{' :: '"' :: 'i' :: 'd' :: '"' :: ':' ::
            (natDigits t.id ++
              ',' :: '"' :: 'c' :: 'o' :: 'n' :: 't' :: 'e' :: 'n' :: 't' :: '"' :: ':' :: '"' ::
                (escapeList t.content.data ++
                  '"' :: ',' :: '"' :: 's' :: 't' :: 'a' :: 't' :: 'e' :: '"' :: ':' :: '"' ::
                    (stateChars t.state ++ ['"', '}']))) from rfl]
      simp only [List.length_append, List.length_cons] at *
      omega

/-- The whole-array codec round-trip at the character level. -/
theorem parseTodoList_serTodos (ts : List Todo) (hvalid : ∀ t ∈ ts, t.id < 2 ^ 64) :
    parseTodoList (serTodos ts) = .ok ts := by
  cases ts with
  | nil => rfl
  | cons t ts' =>
    have hlen : (t :: ts').length ≤ (serItems (t :: ts') ++ [']']).length + 1 := by
      have := length_serItems (t :: ts')
      simp only [List.length_append, List.length_cons] at *
      omega
    have hm := parseManyTodos_serItems (t :: ts') (by simp) hvalid
        ((serItems (t :: ts') ++ [']']).length + 1) hlen []
    cases ts' with
    | nil =>
      show (match parseManyTodos ((serItems [t] ++ [']']).length + 1) (serItems [t] ++ [']']) with
        | .error e => Except.error e
        | .ok (l, r) =>
          if (skipWs r).isEmpty then Except.ok l else Except.error "trailing characters")
        = Except.ok [t]
      rw [show (serItems [t] ++ [']'] : List Char) = serItems [t] ++ ']' :: [] from rfl, hm]
      rfl
    | cons t' ts'' =>
      show (match parseManyTodos ((serItems (t :: t' :: ts'') ++ [']']).length + 1)
              (serItems (t :: t' :: ts'') ++ [']']) with
        | .error e => Except.error e
        | .ok (l, r) =>
          if (skipWs r).isEmpty then Except.ok l else Except.error "trailing characters")
        = Except.ok (t :: t' :: ts'')
      rw [show (serItems (t :: t' :: ts'') ++ [']'] : List Char)
            = serItems (t :: t' :: ts'') ++ ']' :: [] from rfl, hm]
      rfl

/-- The codec round-trip at the `String` level: deserializing what
`serde_json::to_string` emitted recovers exactly the input records. -/
theorem from_str_to_string (ts : List Todo) (hvalid : ∀ t ∈ ts, t.id < 2 ^ 64) :
    serde_json.from_str (serde_json.to_string ts) = .ok ts := by
  rw [serde_json.from_str, serde_json.to_string]
  exact parseTodoList_serTodos ts hvalid

/-! ## Concrete hosts and data used by the witnesses -/

/-- A host with a resolvable home directory and no files at all. -/
def demoEnv : Env := { home := some "home", fs := fun _ => none }

/-- A host on which the home directory cannot be resolved. -/
def demoEnvNoHome : Env := { home := none, fs := fun _ => none }

/-- A host whose store file exists but holds the literal text `not-json`. -/
def demoEnvBad : Env :=
  { home := some "home",
    fs := fun q => if q = persistence.storePath "home" then some "not-json" else none }

/-- A sample record list. -/
def demoTodos : List Todo := [{ id := 1, content := "buy milk", state := .Pending }]

/-! ## The claims -/

/-- C1: for every ordered sequence of valid `Todo` records, `write` followed
by `read` succeeds and returns a sequence equal to the input in order and in
the content of every record. -/
theorem save_load_round_trip (env : Env) (h : String) (ts : List Todo)
    (hhome : env.home = some h) (hvalid : ∀ t ∈ ts, t.id < 2 ^ 64) :
    (persistence.write ts env).1 = .ok () ∧
    persistence.read (persistence.write ts env).2
      = (.ok ts, (persistence.write ts env).2) := by
  by_cases hfs : (env.fs (persistence.storePath h)).isSome <;>
    refine ⟨?_, ?_⟩ <;>
      simp [persistence.write, persistence.read, persistence.init, hhome, hfs,
        from_str_to_string ts hvalid]

/-- Witness for C1 on a concrete host and record list. -/
theorem save_load_round_trip_witness :
    (persistence.write demoTodos demoEnv).1 = .ok () ∧
    persistence.read (persistence.write demoTodos demoEnv).2
      = (.ok demoTodos, (persistence.write demoTodos demoEnv).2) :=
  save_load_round_trip demoEnv "home" demoTodos rfl (by decide)

/-- C2: when the environment supplies no home directory, `init`, `read` and
`write` all fail with the `HomeDir` condition and the file system is left
untouched — no file is created anywhere. -/
theorem home_dir_failure (env : Env) (hh : env.home = none) :
    persistence.init env = (.error .HomeDir, env) ∧
    persistence.read env = (.error .HomeDir, env) ∧
    ∀ ts : List Todo, persistence.write ts env = (.error .HomeDir, env) := by
  refine ⟨?_, ?_, fun ts => ?_⟩ <;>
    simp [persistence.init, persistence.read, persistence.write, hh]

/-- Witness for C2 on a concrete homeless host. -/
theorem home_dir_failure_witness :
    persistence.init demoEnvNoHome = (.error .HomeDir, demoEnvNoHome) ∧
    persistence.read demoEnvNoHome = (.error .HomeDir, demoEnvNoHome) ∧
    persistence.write demoTodos demoEnvNoHome = (.error .HomeDir, demoEnvNoHome) :=
  ⟨(home_dir_failure demoEnvNoHome rfl).1,
   (home_dir_failure demoEnvNoHome rfl).2.1,
   (home_dir_failure demoEnvNoHome rfl).2.2 demoTodos⟩

/-- C3: when the store file exists but deserialization of its content fails,
`read` fails with exactly that `Parse` condition and changes nothing — it
never returns a partial or default list. -/
theorem parse_failure_surfaces (env : Env) (h : String) (c : String) (e : String)
    (hh : env.home = some h) (hfs : env.fs (persistence.storePath h) = some c)
    (he : serde_json.from_str c = .error e) :
    persistence.read env = (.error (.Parse e), env) := by
  have hsome : (env.fs (persistence.storePath h)).isSome = true := by rw [hfs]; rfl
  simp [persistence.read, persistence.init, hh, hfs, hsome, he]

/-- Witness for C3: a store file holding the literal text `not-json`. -/
theorem parse_failure_surfaces_witness :
    persistence.read demoEnvBad = (.error (.Parse "expected list"), demoEnvBad) :=
  parse_failure_surfaces demoEnvBad "home" "not-json" "expected list" rfl
    (by simp [demoEnvBad]) rfl

/-- C4: on a host with no store file, `init` creates the file at
`<home>/.acta` containing exactly `[]`, touches no other path, and a `read`
performed immediately afterwards succeeds with the empty sequence. -/
theorem empty_default (env : Env) (h : String) (hh : env.home = some h)
    (habs : env.fs (persistence.storePath h) = none) :
    (persistence.init env).1 = .ok (persistence.storePath h) ∧
    ((persistence.init env).2).fs (persistence.storePath h) = some "[]" ∧
    (∀ q, q ≠ persistence.storePath h → ((persistence.init env).2).fs q = env.fs q) ∧
    persistence.read (persistence.init env).2 = (.ok [], (persistence.init env).2) := by
  have hnot : (env.fs (persistence.storePath h)).isSome = false := by rw [habs]; rfl
  refine ⟨?_, ?_, fun q hq => ?_, ?_⟩
  · simp [persistence.init, hh, hnot]
  · simp [persistence.init, hh, hnot]
  · simp [persistence.init, hh, hnot, hq]
  · simp [persistence.init, persistence.read, hh, hnot,
      show serde_json.from_str "[]" = .ok [] from rfl]

/-- Witness for C4 on a concrete fresh host. -/
theorem empty_default_witness :
    (persistence.init demoEnv).1 = .ok (persistence.storePath "home") ∧
    ((persistence.init demoEnv).2).fs (persistence.storePath "home") = some "[]" ∧
    persistence.read (persistence.init demoEnv).2 = (.ok [], (persistence.init demoEnv).2) :=
  ⟨(empty_default demoEnv "home" rfl rfl).1,
   (empty_default demoEnv "home" rfl rfl).2.1,
   (empty_default demoEnv "home" rfl rfl).2.2.2⟩

/-- C5: running `init` twice in a row returns the same value both times and
the second run changes nothing, whatever the starting file content. -/
theorem init_idempotent (env : Env) :
    persistence.init (persistence.init env).2
      = ((persistence.init env).1, (persistence.init env).2) := by
  cases hh : env.home with
  | none => simp [persistence.init, hh]
  | some h =>
    by_cases hfs : (env.fs (persistence.storePath h)).isSome <;>
      simp [persistence.init, hh, hfs]

/-- C6: a successful `write` replaces the whole store file content with the
serialization of the given records, independent of the prior content, and
touches no other path. -/
theorem write_whole_file_replace (env : Env) (h : String) (ts : List Todo)
    (hh : env.home = some h) :
    (persistence.write ts env).1 = .ok () ∧
    ((persistence.write ts env).2).fs (persistence.storePath h)
      = some (serde_json.to_string ts) ∧
    ∀ q, q ≠ persistence.storePath h → ((persistence.write ts env).2).fs q = env.fs q := by
  by_cases hfs : (env.fs (persistence.storePath h)).isSome <;>
    refine ⟨?_, ?_, fun q hq => ?_⟩
  · simp [persistence.write, persistence.init, hh, hfs]
  · simp [persistence.write, persistence.init, hh, hfs]
  · simp [persistence.write, persistence.init, hh, hfs, hq]
  · simp [persistence.write, persistence.init, hh, hfs]
  · simp [persistence.write, persistence.init, hh, hfs]
  · simp [persistence.write, persistence.init, hh, hfs, hq]

/-- Witness for C6 on a concrete host holding prior content. -/
theorem write_whole_file_replace_witness :
    (persistence.write demoTodos demoEnvBad).1 = .ok () ∧
    ((persistence.write demoTodos demoEnvBad).2).fs (persistence.storePath "home")
      = some (serde_json.to_string demoTodos) ∧
    ((persistence.write demoTodos demoEnvBad).2).fs "elsewhere" = demoEnvBad.fs "elsewhere" :=
  ⟨(write_whole_file_replace demoEnvBad "home" demoTodos rfl).1,
   (write_whole_file_replace demoEnvBad "home" demoTodos rfl).2.1,
   (write_whole_file_replace demoEnvBad "home" demoTodos rfl).2.2 "elsewhere" (by decide)⟩

/-- C7: `main` discards the result of the startup `init` call and proceeds
to command dispatch even when that call fails, and every later `read` or
`write` re-runs `init` and surfaces the same failure as a typed error. -/
theorem startup_failure_swallowed (env : Env) (hh : env.home = none) :
    (∀ (rc : RawCommand) (c : Commands), parse_args (some rc) = .ok ⟨some c⟩ →
        mainRun (some rc) env
          = (.ran (handle_command c env).1, (handle_command c env).2)) ∧
    (persistence.read env).1 = .error .HomeDir ∧
    ∀ ts : List Todo, (persistence.write ts env).1 = .error .HomeDir := by
  refine ⟨fun rc c hparse => ?_, ?_, fun ts => ?_⟩
  · simp [mainRun, hparse, persistence.init, hh]
  · simp [persistence.read, persistence.init, hh]
  · simp [persistence.write, persistence.init, hh]

/-- Witness for C7: dispatch still runs on a homeless host, and storage
calls there fail with the typed `HomeDir` error. -/
theorem startup_failure_swallowed_witness :
    mainRun (some .rawExport) demoEnvNoHome
      = (.ran (handle_command .Export demoEnvNoHome).1,
          (handle_command .Export demoEnvNoHome).2) ∧
    (persistence.read demoEnvNoHome).1 = .error .HomeDir ∧
    (persistence.write demoTodos demoEnvNoHome).1 = .error .HomeDir :=
  ⟨(startup_failure_swallowed demoEnvNoHome rfl).1 .rawExport .Export rfl,
   (startup_failure_swallowed demoEnvNoHome rfl).2.1,
   (startup_failure_swallowed demoEnvNoHome rfl).2.2 demoTodos⟩

/-- C8: an invocation of the listing command with both selectors set is
rejected by argument parsing before any storage access — the environment is
returned untouched — while any combination with at most one selector set is
accepted with the given flag values (each defaults to `false`). -/
theorem list_flags_mutually_exclusive :
    (∀ env : Env, mainRun (some (.rawList true true)) env
        = (.usage .conflictingFlags, env)) ∧
    (∀ completed pending : Bool, (completed && pending) = false →
        parse_args (some (.rawList completed pending))
          = .ok ⟨some (.List completed pending)⟩) := by
  refine ⟨fun env => rfl, fun completed pending hcp => ?_⟩
  simp [parse_args, hcp]

/-- Witness for C8: the conflicting invocation on a concrete host, and the
three accepted flag combinations. -/
theorem list_flags_mutually_exclusive_witness :
    mainRun (some (.rawList true true)) demoEnv = (.usage .conflictingFlags, demoEnv) ∧
    parse_args (some (.rawList true false)) = .ok ⟨some (.List true false)⟩ ∧
    parse_args (some (.rawList false true)) = .ok ⟨some (.List false true)⟩ ∧
    parse_args (some (.rawList false false)) = .ok ⟨some (.List false false)⟩ :=
  ⟨list_flags_mutually_exclusive.1 demoEnv,
   list_flags_mutually_exclusive.2 true false rfl,
   list_flags_mutually_exclusive.2 false true rfl,
   list_flags_mutually_exclusive.2 false false rfl⟩

/-- C9 counterexample: the dispatch match does not range over five
operations — `Export` is a sixth variant, so the constructor indices are
not bounded by five. -/
theorem dispatch_not_five_ops : ¬ ∀ c : Commands, ctorIdx c < 5 :=
  fun hall => absurd (hall .Export) (by decide)

/-- C9 (amended): command dispatch is a flat match over six operations, all
six of which are unimplemented stubs — each arm only prints a fixed
announcement and performs no storage access and no mutation of the store. -/
theorem dispatch_six_stubs :
    (∀ c : Commands, ctorIdx c < 6) ∧
    (∀ (completed pending : Bool) (env : Env),
        handle_command (.List completed pending) env = ("Listing", env)) ∧
    (∀ (s : String) (env : Env), handle_command (.Add s) env = ("Adding", env)) ∧
    (∀ (i : Nat) (env : Env), handle_command (.Complete i) env = ("Completing", env)) ∧
    (∀ (i : Nat) (s : String) (env : Env),
        handle_command (.Edit i s) env = ("Editing", env)) ∧
    (∀ (i : Nat) (env : Env), handle_command (.Delete i) env = ("Deleting", env)) ∧
    (∀ env : Env, handle_command .Export env = ("Exporting", env)) := by
  refine ⟨fun c => ?_, fun _ _ _ => rfl, fun _ _ => rfl, fun _ _ => rfl,
    fun _ _ _ => rfl, fun _ _ => rfl, fun _ => rfl⟩
  cases c <;> simp [ctorIdx]

/-- C10: when the store file exists, `read` leaves the environment exactly
as it was, whether deserialization succeeds or fails; when it is absent, the
only file-creating effect of `read` is writing `[]` at the store path via
`init`. -/
theorem read_frame (env : Env) (h : String) (hh : env.home = some h) :
    (∀ c, env.fs (persistence.storePath h) = some c → (persistence.read env).2 = env) ∧
    (env.fs (persistence.storePath h) = none →
      ((persistence.read env).2).fs (persistence.storePath h) = some "[]" ∧
      ∀ q, q ≠ persistence.storePath h → ((persistence.read env).2).fs q = env.fs q) := by
  constructor
  · intro c hfs
    have hsome : (env.fs (persistence.storePath h)).isSome = true := by rw [hfs]; rfl
    cases hfc : serde_json.from_str c <;>
      simp [persistence.read, persistence.init, hh, hfs, hsome, hfc]
  · intro habs
    have hnot : (env.fs (persistence.storePath h)).isSome = false := by rw [habs]; rfl
    refine ⟨?_, fun q hq => ?_⟩
    · simp [persistence.read, persistence.init, hh, hnot,
        show serde_json.from_str "[]" = .ok [] from rfl]
    · simp [persistence.read, persistence.init, hh, hnot, hq,
        show serde_json.from_str "[]" = .ok [] from rfl]

/-- Witness for C10: a host whose existing file fails to parse is returned
untouched, and a fresh host gains exactly the `[]` store file. -/
theorem read_frame_witness :
    (persistence.read demoEnvBad).2 = demoEnvBad ∧
    ((persistence.read demoEnv).2).fs (persistence.storePath "home") = some "[]" :=
  ⟨(read_frame demoEnvBad "home" rfl).1 "not-json" (by simp [demoEnvBad]),
   ((read_frame demoEnv "home" rfl).2 rfl).1⟩
